import Mathlib

/-!
Verification of the bubble-shooter game engine (BubbleGrid / Bubble / Shooter /
BubbleGame classes).  The JavaScript classes are shallowly embedded: numbers
become rationals, `Math.sin` / `Math.cos` / `Math.atan2` / `Math.PI` become an
abstract `MathOps` parameter (JS floating-point trigonometry is treated as an
uninterpreted function), `Math.random` becomes an explicit rational argument,
and the mutable 2-D `grid` array becomes a total function from integer
coordinates to optional occupants, accessed only through the bounds-checked
`getBubble` / `addBubble` / `removeBubble` operations, exactly as in the source.
-/

/-- JavaScript `Math.round`: round half towards positive infinity,
i.e. `Math.round(q) = ⌊q + 0.5⌋`. -/
def jsRound (q : ℚ) : ℤ := ⌊q + 1/2⌋

/-- Lifecycle states of a bubble: `// static, moving, falling, exploding`
plus the `destroyed` state entered at the end of the explosion animation. -/
inductive BubbleState where
  | bstatic
  | moving
  | falling
  | exploding
  | destroyed
deriving DecidableEq, Repr

/-- The `Bubble` class.  `rotation` is `undefined` in JS until first written and
is always read through `(this.rotation || 0)`, so it is modelled as a rational
starting at `0`.  `animationFrame` only ever holds the values `0,1,2,...`, so it
is modelled as a natural number. -/
structure Bubble where
  x : ℚ
  y : ℚ
  originalX : ℚ
  originalY : ℚ
  color : String
  radius : ℚ
  vx : ℚ
  vy : ℚ
  state : BubbleState
  animationFrame : ℕ
  glowIntensity : ℚ
  gridRow : ℤ
  gridCol : ℤ
  rotation : ℚ
deriving DecidableEq, Repr

/-- The `Bubble` constructor `new Bubble(x, y, color, radius = 20)`. -/
def mkBubble (x y : ℚ) (color : String) (radius : ℚ := 20) : Bubble :=
  { x := x
    y := y
    originalX := x
    originalY := y
    color := color
    radius := radius
    vx := 0
    vy := 0
    state := .bstatic
    animationFrame := 0
    glowIntensity := 0
    gridRow := -1
    gridCol := -1
    rotation := 0 }

/-- `Bubble.setGridPosition(row, col)`. -/
def Bubble.setGridPosition (b : Bubble) (row col : ℤ) : Bubble :=
  { b with gridRow := row, gridCol := col }

/-- `Bubble.stop()`: fix the bubble in place. -/
def Bubble.stop (b : Bubble) : Bubble :=
  { b with state := .bstatic, vx := 0, vy := 0 }

/-- `Bubble.explode()`: start the explosion animation. -/
def Bubble.explode (b : Bubble) : Bubble :=
  { b with state := .exploding, animationFrame := 0 }

/-- `Bubble.fall()` randomizes `vx`, `vy`; the two random draws are explicit
arguments here. -/
def Bubble.fall (b : Bubble) (rand1 rand2 : ℚ) : Bubble :=
  { b with state := .falling, vx := (rand1 - 1/2) * 2, vy := rand2 * 2 }

/-- `Bubble.update()`.  `sinF` stands for `Math.sin` and `now` for
`Date.now()`; neither influences anything but `glowIntensity`. -/
def Bubble.update (sinF : ℚ → ℚ) (now : ℚ) (b : Bubble) : Bubble :=
  match b.state with
  | .moving => { b with x := b.x + b.vx, y := b.y + b.vy }
  | .falling =>
      let vy := b.vy + 1/2
      { b with vy := vy, x := b.x + b.vx * (98/100), y := b.y + vy,
               rotation := b.rotation + 1/10 }
  | .exploding =>
      let af := b.animationFrame + 1
      let glow := sinF ((af : ℚ) * (3/10)) * (1/2) + 1/2
      if af > 20 then
        { b with animationFrame := af, glowIntensity := glow, state := .destroyed }
      else
        { b with animationFrame := af, glowIntensity := glow }
  | .bstatic =>
      { b with glowIntensity := sinF (now * (2/1000)) * (1/10) + 1/10 }
  | .destroyed => b

/-- `Bubble.bounceOffWalls(canvasWidth, canvasHeight)`: side walls invert the
horizontal velocity and clamp `x`; the top wall inverts the vertical velocity
and clamps `y`; there is no bottom-wall case. -/
def Bubble.bounceOffWalls (b : Bubble) (canvasWidth canvasHeight : ℚ) : Bubble :=
  let b1 :=
    if b.x ≤ b.radius ∨ b.x ≥ canvasWidth - b.radius then
      { b with vx := -b.vx, x := max b.radius (min (canvasWidth - b.radius) b.x) }
    else b
  let _ := canvasHeight
  if b1.y ≤ b1.radius then
    { b1 with vy := -b1.vy, y := b1.radius }
  else b1

/-- A grid coordinate pair `(row, col)`. -/
abbrev Cell := ℤ × ℤ

/-- An element of the list returned by `findConnectedBubbles`:
`{ row, col, bubble }`. -/
abbrev Entry := Cell × Bubble

/-- The `BubbleGrid` class.  The 2-D array `this.grid` is modelled as a total
function on integer coordinates; every access in the source goes through the
bounds check `isValidPosition` first, so values outside `[0,rows) × [0,cols)`
are unobservable. -/
structure BubbleGrid where
  rows : ℤ
  cols : ℤ
  bubbleRadius : ℚ
  hexOffsetX : ℚ
  hexOffsetY : ℚ
  startX : ℚ
  startY : ℚ
  cells : ℤ → ℤ → Option Bubble

/-- The `BubbleGrid` constructor composed with `initGrid()`.  `sqrt3` stands
for the floating-point value `Math.sqrt(3)` used for the vertical hex offset. -/
def mkBubbleGrid (rows cols : ℤ) (sqrt3 : ℚ) : BubbleGrid :=
  { rows := rows
    cols := cols
    bubbleRadius := 20
    hexOffsetX := 20 * 2
    hexOffsetY := 20 * sqrt3
    startX := 50
    startY := 50
    cells := fun _ _ => none }

/-- `BubbleGrid.getPosition(row, col)`: pixel center of a cell, with the
half-bubble horizontal stagger `(row % 2) * bubbleRadius` on odd rows.
JS `%` is the truncated remainder, `Int.tmod`. -/
def BubbleGrid.getPosition (g : BubbleGrid) (row col : ℤ) : ℚ × ℚ :=
  (g.startX + (col : ℚ) * g.hexOffsetX + ((row.tmod 2 : ℤ) : ℚ) * g.bubbleRadius,
   g.startY + (row : ℚ) * g.hexOffsetY)

/-- `BubbleGrid.getGridPosition(x, y)`: nearest cell of a pixel position. -/
def BubbleGrid.getGridPosition (g : BubbleGrid) (x y : ℚ) : Cell :=
  let row := jsRound ((y - g.startY) / g.hexOffsetY)
  let offsetX := ((row.tmod 2 : ℤ) : ℚ) * g.bubbleRadius
  let col := jsRound ((x - g.startX - offsetX) / g.hexOffsetX)
  (row, col)

/-- `BubbleGrid.isValidPosition(row, col)`. -/
def BubbleGrid.isValidPosition (g : BubbleGrid) (row col : ℤ) : Bool :=
  decide (0 ≤ row ∧ row < g.rows ∧ 0 ≤ col ∧ col < g.cols)

/-- `BubbleGrid.getBubble(row, col)`: bounds-checked cell read. -/
def BubbleGrid.getBubble (g : BubbleGrid) (row col : ℤ) : Option Bubble :=
  if g.isValidPosition row col then g.cells row col else none

/-- `BubbleGrid.addBubble(row, col, bubble)`: on a valid position, snap the
bubble to the cell center, record its grid coordinates, stop it, and store it
(overwriting whatever the cell held); return whether the position was valid. -/
def BubbleGrid.addBubble (g : BubbleGrid) (row col : ℤ) (bubble : Bubble) :
    Bool × BubbleGrid :=
  if g.isValidPosition row col then
    let pos := g.getPosition row col
    let b := (({ bubble with x := pos.1, y := pos.2 }).setGridPosition row col).stop
    (true, { g with cells := fun r c => if r = row ∧ c = col then some b else g.cells r c })
  else
    (false, g)

/-- `BubbleGrid.removeBubble(row, col)`: bounds-checked removal returning the
previous occupant. -/
def BubbleGrid.removeBubble (g : BubbleGrid) (row col : ℤ) :
    Option Bubble × BubbleGrid :=
  if g.isValidPosition row col then
    (g.cells row col,
     { g with cells := fun r c => if r = row ∧ c = col then none else g.cells r c })
  else
    (none, g)

/-- Neighbor offsets used by `getNeighbors` for even rows. -/
def evenOffsets : List Cell :=
  [(-1, -1), (-1, 0), (0, -1), (0, 1), (1, -1), (1, 0)]

/-- Neighbor offsets used by `getNeighbors` for odd rows. -/
def oddOffsets : List Cell :=
  [(-1, 0), (-1, 1), (0, -1), (0, 1), (1, 0), (1, 1)]

/-- `BubbleGrid.getNeighbors(row, col)`: shift the parity-selected offsets and
keep the in-bounds results, in source order. -/
def BubbleGrid.getNeighbors (g : BubbleGrid) (row col : ℤ) : List Cell :=
  ((if row.tmod 2 = 0 then evenOffsets else oddOffsets).map
      (fun d => (row + d.1, col + d.2))).filter
    (fun p => g.isValidPosition p.1 p.2)

/-- Sequential traversal of a neighbor list threading the visited set, i.e. the
`for (const [nRow, nCol] of neighbors) connected = connected.concat(...)` loop
of `findConnectedBubbles`, abstracted over the recursive call `auxF`. -/
def findConnectedNbrs (auxF : Cell → Finset Cell → List Entry × Finset Cell) :
    List Cell → Finset Cell → List Entry × Finset Cell
  | [], visited => ([], visited)
  | n :: ns, visited =>
      ((auxF n visited).1 ++ (findConnectedNbrs auxF ns (auxF n visited).2).1,
       (findConnectedNbrs auxF ns (auxF n visited).2).2)

/-- One activation of `findConnectedBubbles(row, col, color, visited)`.  The JS
recursion has no fuel; recursion depth is bounded by the number of valid cells
plus one because every nested call is guarded by an insertion of a fresh valid
cell into `visited`, so a fuel of `rows·cols + 1` (supplied by the wrapper
below) makes the fueled function agree with the source. -/
def findConnectedAux (g : BubbleGrid) (color : String) :
    ℕ → Cell → Finset Cell → List Entry × Finset Cell
  | 0, _, visited => ([], visited)
  | fuel + 1, p, visited =>
      if p ∈ visited then ([], visited)
      else
        match g.getBubble p.1 p.2 with
        | none => ([], visited)
        | some bubble =>
            if bubble.color = color then
              ((p, bubble) ::
                 (findConnectedNbrs (fun q w => findConnectedAux g color fuel q w)
                   (g.getNeighbors p.1 p.2) (insert p visited)).1,
               (findConnectedNbrs (fun q w => findConnectedAux g color fuel q w)
                   (g.getNeighbors p.1 p.2) (insert p visited)).2)
            else ([], visited)

/-- `BubbleGrid.findConnectedBubbles(row, col, color)` with the default
`visited = new Set()`.  The fuel `rows·cols + 1` strictly exceeds the number of
in-bounds cells, hence the nesting depth of the source recursion. -/
def BubbleGrid.findConnectedBubbles (g : BubbleGrid) (row col : ℤ)
    (color : String) : List Entry :=
  (findConnectedAux g color (g.rows.toNat * g.cols.toNat + 1) (row, col) ∅).1

/-- The `for (let r = row; r >= 0; r--)` upward scan of
`findNearestEmptyPosition`: first free row at or below `r` in column `col`,
`none` if every row from `r` down to `0` is occupied. -/
def scanUp (g : BubbleGrid) (col : ℤ) : ℕ → Option ℤ
  | 0 => if (g.getBubble 0 col).isNone then some 0 else none
  | r + 1 =>
      if (g.getBubble ((r : ℤ) + 1) col).isNone then some ((r : ℤ) + 1)
      else scanUp g col r

/-- `BubbleGrid.findNearestEmptyPosition(x, y)`. -/
def BubbleGrid.findNearestEmptyPosition (g : BubbleGrid) (x y : ℚ) : Cell :=
  let gridPos := g.getGridPosition x y
  let row := max 0 (min (g.rows - 1) gridPos.1)
  let col := max 0 (min (g.cols - 1) gridPos.2)
  if (g.getBubble row col).isNone then (row, col)
  else
    match scanUp g col row.toNat with
    | some r => (r, col)
    | none => (0, col)

/-- `BubbleGrid.isGameOver()`: some cell of the bottom row is occupied. -/
def BubbleGrid.isGameOver (g : BubbleGrid) : Prop :=
  ∃ col, 0 ≤ col ∧ col < g.cols ∧ (g.getBubble (g.rows - 1) col).isSome

/-- The set of in-bounds cells; `isValidPosition` is membership in it. -/
def validCells (g : BubbleGrid) : Finset Cell :=
  Finset.Icc 0 (g.rows - 1) ×ˢ Finset.Icc 0 (g.cols - 1)

/-- Cell `p` holds a bubble of color `color`. -/
def matchAt (g : BubbleGrid) (color : String) (p : Cell) : Prop :=
  ∃ b, g.getBubble p.1 p.2 = some b ∧ b.color = color

/-- One hop of the same-color flood fill: `q` is a hex neighbor of `p` and
holds a bubble of the queried color. -/
def connStep (g : BubbleGrid) (color : String) (p q : Cell) : Prop :=
  q ∈ g.getNeighbors p.1 p.2 ∧ matchAt g color q

/-- Reachability through same-color cells via the hex neighbor relation; for a
matching origin this carves out exactly the maximal same-color connected
component containing it. -/
def connReach (g : BubbleGrid) (color : String) : Cell → Cell → Prop :=
  Relation.ReflTransGen (connStep g color)

/-- Postcondition of one `findConnectedAux` activation started at `start` with
visited set `visited` and result `out`: the new visited set is the old one plus
the reported cells, the reported cells are fresh and pairwise distinct, every
reported entry is a same-color occupant reachable from `start`, and a nonempty
report begins with the start cell itself. -/
def AuxPost (g : BubbleGrid) (color : String) (start : Cell)
    (visited : Finset Cell) (out : List Entry × Finset Cell) : Prop :=
  (∀ p : Cell, p ∈ out.2 ↔ p ∈ visited ∨ p ∈ out.1.map Prod.fst) ∧
  (out.1.map Prod.fst).Nodup ∧
  (∀ e ∈ out.1, e.1 ∉ visited) ∧
  (∀ e ∈ out.1, g.getBubble e.1.1 e.1.2 = some e.2 ∧ e.2.color = color) ∧
  (∀ e ∈ out.1, connReach g color start e.1) ∧
  (out.1 = [] ∨ ∃ b rest, out.1 = (start, b) :: rest)

/-- Postcondition of the neighbor-loop `findConnectedNbrs` over the cells `ns`:
as `AuxPost`, except that each reported entry is reachable from some matching
cell of `ns`. -/
def NbrsPost (g : BubbleGrid) (color : String) (ns : List Cell)
    (visited : Finset Cell) (out : List Entry × Finset Cell) : Prop :=
  (∀ p : Cell, p ∈ out.2 ↔ p ∈ visited ∨ p ∈ out.1.map Prod.fst) ∧
  (out.1.map Prod.fst).Nodup ∧
  (∀ e ∈ out.1, e.1 ∉ visited) ∧
  (∀ e ∈ out.1, g.getBubble e.1.1 e.1.2 = some e.2 ∧ e.2.color = color) ∧
  (∀ e ∈ out.1, ∃ n ∈ ns, matchAt g color n ∧ connReach g color n e.1)

/-- The `MathOps` record abstracts the floating-point library functions the
`Shooter` class uses: `Math.sin`, `Math.cos`, `Math.atan2` and `Math.PI`. -/
structure MathOps where
  sin : ℚ → ℚ
  cos : ℚ → ℚ
  atan2 : ℚ → ℚ → ℚ
  pi : ℚ

/-- The `Shooter` class (game-state fields; the DOM preview update performed by
`updateNextBubblePreview` touches no field of the shooter). -/
structure Shooter where
  x : ℚ
  y : ℚ
  angle : ℚ
  power : ℚ
  currentBubble : Option Bubble
  nextBubble : Option Bubble
  trajectory : List (ℚ × ℚ)
  colors : List String
deriving DecidableEq

/-- `Shooter.generateRandomBubble()`; `rand` stands for the `Math.random()`
draw in `[0, 1)`.  An out-of-range index (impossible for `rand ∈ [0,1)` and a
nonempty palette) yields JS `undefined`, modelled by the fallback color. -/
def Shooter.generateRandomBubble (s : Shooter) (rand : ℚ) : Bubble :=
  let idx := (⌊rand * (s.colors.length : ℚ)⌋).toNat
  mkBubble s.x (s.y - 30) (s.colors.getD idx "undefined") 15

/-- The stepping loop of `Shooter.calculateTrajectory` (`maxSteps` iterations,
side-wall bounce at `x ≤ 15` / `x ≥ 785`, stop above `y ≤ 50`). -/
def trajectorySteps : ℕ → ℚ → ℚ → ℚ → ℚ → List (ℚ × ℚ)
  | 0, _, _, _, _ => []
  | steps + 1, x, y, vx, vy =>
      let x1 := x + vx
      let y1 := y + vy
      let bounce : Prop := x1 ≤ 15 ∨ x1 ≥ 785
      let x2 := if bounce then max 15 (min 785 x1) else x1
      let vx2 := if bounce then -vx else vx
      if y1 ≤ 50 then []
      else (x2, y1) :: trajectorySteps steps x2 y1 vx2 vy

/-- `Shooter.calculateTrajectory()`: simulate up to 100 steps from the muzzle
point at the current angle and power. -/
def Shooter.calculateTrajectory (ops : MathOps) (s : Shooter) : Shooter :=
  { s with trajectory :=
      (trajectorySteps 100 s.x (s.y - 30) (ops.cos s.angle * s.power)
        (ops.sin s.angle * s.power)) }

/-- `Shooter.aim(targetX, targetY)`: arctangent of the target relative to the
pivot, clamped to the cone `[-0.8π, -0.2π]`, then the trajectory preview is
recomputed. -/
def Shooter.aim (ops : MathOps) (s : Shooter) (targetX targetY : ℚ) : Shooter :=
  let raw := ops.atan2 (targetY - s.y) (targetX - s.x)
  let minAngle := -ops.pi * (8/10)
  let maxAngle := -ops.pi * (2/10)
  Shooter.calculateTrajectory ops { s with angle := max minAngle (min maxAngle raw) }

/-- `Shooter.shoot()`: `null` when no bubble is loaded (the source returns
before touching any field); otherwise launch the loaded bubble at the current
angle and shift the queue, generating a fresh queued bubble from the
`Math.random()` draw `rand`. -/
def Shooter.shoot (ops : MathOps) (rand : ℚ) (s : Shooter) :
    Option Bubble × Shooter :=
  match s.currentBubble with
  | none => (none, s)
  | some b =>
      let bubble := { b with
        x := s.x
        y := s.y - 30
        vx := ops.cos s.angle * s.power
        vy := ops.sin s.angle * s.power
        state := BubbleState.moving }
      (some bubble,
       { s with currentBubble := s.nextBubble,
                nextBubble := some (s.generateRandomBubble rand) })

/-- `Shooter.canShoot()`. -/
def Shooter.canShoot (s : Shooter) : Prop :=
  s.currentBubble ≠ none

/-- The slice of the `BubbleGame` class state that the elimination step reads
and writes: the grid, the score and the high score (`updateScore` also mirrors
them into the DOM and local storage, which is outside the engine). -/
structure BubbleGame where
  bubbleGrid : BubbleGrid
  score : ℤ
  highScore : ℤ

/-- Loop body of the elimination loop of `BubbleGame.checkElimination`: remove
the cell of one connected entry, and on a hit start its explosion and count it.
The exploded bubbles are collected so that their state is observable (the
source drops the references after calling `explode()`). -/
def eliminateStep (acc : BubbleGrid × ℕ × List Bubble) (item : Entry) :
    BubbleGrid × ℕ × List Bubble :=
  let o := acc.1.removeBubble item.1.1 item.1.2
  match o.1 with
  | some b => (o.2, acc.2.1 + 1, acc.2.2 ++ [b.explode])
  | none => (o.2, acc.2.1, acc.2.2)

/-- `BubbleGame.checkElimination(row, col)`: if the landed cell is occupied and
its same-color connected set has at least 3 members, remove every member,
explode each removed bubble, add `10 × eliminatedCount` to the score and raise
the high score if exceeded (`checkFallingBubbles` is a stub).  Returns the new
game state together with the exploded bubbles. -/
def BubbleGame.checkElimination (game : BubbleGame) (row col : ℤ) :
    BubbleGame × List Bubble :=
  match game.bubbleGrid.getBubble row col with
  | none => (game, [])
  | some bubble =>
      let connected := game.bubbleGrid.findConnectedBubbles row col bubble.color
      if 3 ≤ connected.length then
        let o := connected.foldl eliminateStep (game.bubbleGrid, 0, [])
        let score := game.score + (o.2.1 : ℤ) * 10
        let high := if game.highScore < score then score else game.highScore
        ({ bubbleGrid := o.1, score := score, highScore := high }, o.2.2)
      else (game, [])

/-- A red bubble used in the concrete example grids. -/
def redB : Bubble := mkBubble 0 0 "red"

/-- A 3×3 grid holding a single isolated red bubble at `(1,1)`
(geometry from the constructor with a rational stand-in for `√3`). -/
def gSingle : BubbleGrid :=
  { mkBubbleGrid 3 3 2 with
    cells := fun r c => if r = 1 ∧ c = 1 then some redB else none }

/-- A 3×3 grid whose red bubbles at `(0,0)`, `(0,1)`, `(1,0)` form a 3-cycle of
mutually adjacent cells. -/
def gCycle : BubbleGrid :=
  { mkBubbleGrid 3 3 2 with
    cells := fun r c =>
      if (r = 0 ∧ c = 0) ∨ (r = 0 ∧ c = 1) ∨ (r = 1 ∧ c = 0) then some redB
      else none }

/-- A 2×1 grid whose single column is fully occupied. -/
def gFullCol : BubbleGrid :=
  { mkBubbleGrid 2 1 2 with cells := fun r c =>
      if (r = 0 ∨ r = 1) ∧ c = 0 then some redB else none }

/-- Concrete math operations used to instantiate theorems about the shooter. -/
def opsEx : MathOps :=
  { sin := fun _ => 0, cos := fun _ => 1, atan2 := fun _ _ => 0, pi := 3 }

/-- A concrete shooter with a loaded and a queued bubble. -/
def shooterEx : Shooter :=
  { x := 400, y := 550, angle := -1, power := 12,
    currentBubble := some (mkBubble 400 520 "red" 15),
    nextBubble := some (mkBubble 400 520 "blue" 15),
    trajectory := [], colors := ["red", "blue"] }

/-- A concrete shooter with no loaded bubble. -/
def shooterEmpty : Shooter :=
  { shooterEx with currentBubble := none }

/-- A concrete in-flight bubble just past the left wall with leftward
velocity. -/
def bLeftWall : Bubble :=
  { mkBubble (-2) 100 "red" 20 with vx := -3, vy := 5 }

/-- A concrete game state over the 3-cycle grid. -/
def gameEx : BubbleGame :=
  { bubbleGrid := gCycle, score := 5, highScore := 7 }

/-! ## Basic facts about the grid operations -/

theorem isValidPosition_iff (g : BubbleGrid) (row col : ℤ) :
    g.isValidPosition row col = true ↔
      0 ≤ row ∧ row < g.rows ∧ 0 ≤ col ∧ col < g.cols := by
  simp [BubbleGrid.isValidPosition]

theorem getBubble_isValid {g : BubbleGrid} {row col : ℤ} {b : Bubble}
    (h : g.getBubble row col = some b) : g.isValidPosition row col = true := by
  by_cases hv : g.isValidPosition row col = true
  · exact hv
  · simp [BubbleGrid.getBubble, hv] at h

theorem mem_validCells_iff (g : BubbleGrid) (p : Cell) :
    p ∈ validCells g ↔ g.isValidPosition p.1 p.2 = true := by
  simp only [validCells, Finset.mem_product, Finset.mem_Icc, isValidPosition_iff]
  omega

theorem validCells_card (g : BubbleGrid) :
    (validCells g).card = g.rows.toNat * g.cols.toNat := by
  simp only [validCells, Finset.card_product, Int.card_Icc]
  congr 1 <;> omega

/-! ## Invariants of the flood-fill traversal -/

theorem auxPost_nil (g : BubbleGrid) (color : String) (start : Cell)
    (v : Finset Cell) : AuxPost g color start v ([], v) := by
  refine ⟨by simp, by simp, by simp, by simp, by simp, Or.inl rfl⟩

theorem auxPost_mono {g : BubbleGrid} {color : String} {start : Cell}
    {v : Finset Cell} {out : List Entry × Finset Cell}
    (h : AuxPost g color start v out) : v ⊆ out.2 :=
  fun p hp => (h.1 p).2 (Or.inl hp)

theorem nbrsPost_mono {g : BubbleGrid} {color : String} {ns : List Cell}
    {v : Finset Cell} {out : List Entry × Finset Cell}
    (h : NbrsPost g color ns v out) : v ⊆ out.2 :=
  fun p hp => (h.1 p).2 (Or.inl hp)

theorem nbrsPost_of_auxPost {g : BubbleGrid} {color : String}
    (auxF : Cell → Finset Cell → List Entry × Finset Cell)
    (haux : ∀ q w, AuxPost g color q w (auxF q w)) :
    ∀ ns v, NbrsPost g color ns v (findConnectedNbrs auxF ns v) := by
  intro ns
  induction ns with
  | nil =>
      intro v
      refine ⟨by simp [findConnectedNbrs], by simp [findConnectedNbrs],
        by simp [findConnectedNbrs], by simp [findConnectedNbrs],
        by simp [findConnectedNbrs]⟩
  | cons n ns ih =>
      intro v
      obtain ⟨h1a, h1b, h1c, h1d, h1e, h1f⟩ := haux n v
      obtain ⟨h2a, h2b, h2c, h2d, h2e⟩ := ih (auxF n v).2
      have hmem1 : ∀ e ∈ (auxF n v).1, e.1 ∈ (auxF n v).2 := by
        intro e he
        exact (h1a e.1).2 (Or.inr (List.mem_map_of_mem Prod.fst he))
      refine ⟨?_, ?_, ?_, ?_, ?_⟩
      · intro p
        simp only [findConnectedNbrs, List.map_append, List.mem_append]
        rw [h2a p, h1a p]
        tauto
      · simp only [findConnectedNbrs, List.map_append]
        rw [List.nodup_append]
        refine ⟨h1b, h2b, ?_⟩
        intro p hp1 hp2
        obtain ⟨e1, he1, rfl⟩ := List.mem_map.1 hp1
        obtain ⟨e2, he2, heq⟩ := List.mem_map.1 hp2
        exact h2c e2 he2 (heq ▸ hmem1 e1 he1)
      · intro e he
        simp only [findConnectedNbrs, List.mem_append] at he
        rcases he with he | he
        · exact h1c e he
        · exact fun hv => h2c e he (auxPost_mono ⟨h1a, h1b, h1c, h1d, h1e, h1f⟩ hv)
      · intro e he
        simp only [findConnectedNbrs, List.mem_append] at he
        rcases he with he | he
        · exact h1d e he
        · exact h2d e he
      · intro e he
        simp only [findConnectedNbrs, List.mem_append] at he
        rcases he with he | he
        · refine ⟨n, List.mem_cons_self n ns, ?_, h1e e he⟩
          rcases h1f with h | ⟨b, rest, hcons⟩
          · rw [h] at he; cases he
          · have hhead : (n, b) ∈ (auxF n v).1 := by
              rw [hcons]; exact List.mem_cons_self _ _
            obtain ⟨hb, hcol⟩ := h1d (n, b) hhead
            exact ⟨b, hb, hcol⟩
        · obtain ⟨m, hm, hmatch, hreach⟩ := h2e e he
          exact ⟨m, List.mem_cons_of_mem n hm, hmatch, hreach⟩

theorem auxPost_holds (g : BubbleGrid) (color : String) :
    ∀ fuel p v, AuxPost g color p v (findConnectedAux g color fuel p v) := by
  intro fuel
  induction fuel with
  | zero => intro p v; exact auxPost_nil g color p v
  | succ fuel ih =>
      intro p v
      by_cases hv : p ∈ v
      · simp only [findConnectedAux, if_pos hv]
        exact auxPost_nil g color p v
      · cases hb : g.getBubble p.1 p.2 with
        | none =>
            simp only [findConnectedAux, if_neg hv, hb]
            exact auxPost_nil g color p v
        | some bubble =>
            by_cases hc : bubble.color = color
            · simp only [findConnectedAux, if_neg hv, hb, if_pos hc]
              obtain ⟨ha, hnd, hfresh, hmatch, hreach⟩ :=
                nbrsPost_of_auxPost (fun q w => findConnectedAux g color fuel q w)
                  ih (g.getNeighbors p.1 p.2) (insert p v)
              refine ⟨?_, ?_, ?_, ?_, ?_, ?_⟩
              · intro q
                simp only [List.map_cons, List.mem_cons]
                rw [ha q]
                simp only [Finset.mem_insert]
                tauto
              · simp only [List.map_cons, List.nodup_cons]
                refine ⟨?_, hnd⟩
                intro hp
                obtain ⟨e, he, heq⟩ := List.mem_map.1 hp
                exact hfresh e he (heq ▸ Finset.mem_insert_self p v)
              · intro e he
                rcases List.mem_cons.1 he with rfl | he
                · exact hv
                · exact fun hin => hfresh e he (Finset.mem_insert_of_mem hin)
              · intro e he
                rcases List.mem_cons.1 he with rfl | he
                · exact ⟨hb, hc⟩
                · exact hmatch e he
              · intro e he
                rcases List.mem_cons.1 he with rfl | he
                · exact Relation.ReflTransGen.refl
                · obtain ⟨n, hn, hm, hr⟩ := hreach e he
                  exact Relation.ReflTransGen.head ⟨hn, hm⟩ hr
              · exact Or.inr ⟨bubble, _, rfl⟩
            · simp only [findConnectedAux, if_neg hv, hb, if_neg hc]
              exact auxPost_nil g color p v

theorem card_sdiff_le_of_subset {s : Finset Cell} {v w : Finset Cell}
    (h : v ⊆ w) : (s \ w).card ≤ (s \ v).card :=
  Finset.card_le_card (Finset.sdiff_subset_sdiff (Finset.Subset.refl s) h)

theorem nbrs_complete (g : BubbleGrid) (color : String)
    (auxF : Cell → Finset Cell → List Entry × Finset Cell) (fuel : ℕ)
    (hpost : ∀ q w, AuxPost g color q w (auxF q w))
    (hfirst : ∀ q w, ((validCells g) \ w).card < fuel →
      matchAt g color q → q ∈ (auxF q w).2)
    (hclosed : ∀ q w, ((validCells g) \ w).card < fuel →
      ∀ x ∈ (auxF q w).2, x ∉ w →
        ∀ y, connStep g color x y → y ∈ (auxF q w).2) :
    ∀ ns v, ((validCells g) \ v).card < fuel →
      (∀ n ∈ ns, matchAt g color n → n ∈ (findConnectedNbrs auxF ns v).2) ∧
      (∀ x ∈ (findConnectedNbrs auxF ns v).2, x ∉ v →
        ∀ y, connStep g color x y → y ∈ (findConnectedNbrs auxF ns v).2) := by
  intro ns
  induction ns with
  | nil =>
      intro v hcard
      refine ⟨by simp, ?_⟩
      intro x hx hxv
      simp only [findConnectedNbrs] at hx
      exact absurd hx hxv
  | cons n ns ih =>
      intro v hcard
      have hmono1 : v ⊆ (auxF n v).2 := auxPost_mono (hpost n v)
      have hcard1 : ((validCells g) \ (auxF n v).2).card < fuel :=
        lt_of_le_of_lt (card_sdiff_le_of_subset hmono1) hcard
      have hmono2 : (auxF n v).2 ⊆ (findConnectedNbrs auxF ns (auxF n v).2).2 :=
        nbrsPost_mono (nbrsPost_of_auxPost auxF hpost ns (auxF n v).2)
      obtain ⟨ihf, ihc⟩ := ih (auxF n v).2 hcard1
      constructor
      · intro m hm hmatch
        rcases List.mem_cons.1 hm with rfl | hm
        · exact (nbrsPost_of_auxPost auxF hpost ns (auxF m v).2).1 m |>.2
            (Or.inl (hfirst m v hcard hmatch))
        · exact ihf m hm hmatch
      · intro x hx hxv y hstep
        by_cases hx1 : x ∈ (auxF n v).2
        · exact hmono2 (hclosed n v hcard x hx1 hxv y hstep)
        · exact ihc x hx hx1 y hstep

theorem aux_complete (g : BubbleGrid) (color : String) :
    ∀ fuel p v, ((validCells g) \ v).card < fuel →
      (matchAt g color p → p ∈ (findConnectedAux g color fuel p v).2) ∧
      (∀ x ∈ (findConnectedAux g color fuel p v).2, x ∉ v →
        ∀ y, connStep g color x y →
          y ∈ (findConnectedAux g color fuel p v).2) := by
  intro fuel
  induction fuel with
  | zero => intro p v hcard; exact absurd hcard (Nat.not_lt_zero _)
  | succ fuel ih =>
      intro p v hcard
      by_cases hv : p ∈ v
      · simp only [findConnectedAux, if_pos hv]
        exact ⟨fun _ => hv, fun x hx hxv _ _ => absurd hx hxv⟩
      · cases hb : g.getBubble p.1 p.2 with
        | none =>
            simp only [findConnectedAux, if_neg hv, hb]
            refine ⟨?_, fun x hx hxv _ _ => absurd hx hxv⟩
            rintro ⟨b, hb2, _⟩
            rw [hb] at hb2
            cases hb2
        | some bubble =>
            by_cases hc : bubble.color = color
            · simp only [findConnectedAux, if_neg hv, hb, if_pos hc]
              have hpvalid : p ∈ validCells g :=
                (mem_validCells_iff g p).2 (getBubble_isValid hb)
              have hpdiff : p ∈ validCells g \ v := Finset.mem_sdiff.2 ⟨hpvalid, hv⟩
              have hcard1 :
                  ((validCells g) \ insert p v).card < fuel := by
                have herase : (validCells g) \ insert p v =
                    ((validCells g) \ v).erase p := by
                  ext q
                  simp only [Finset.mem_sdiff, Finset.mem_insert, Finset.mem_erase]
                  tauto
                rw [herase, Finset.card_erase_of_mem hpdiff]
                have hpos : 0 < ((validCells g) \ v).card :=
                  Finset.card_pos.2 ⟨p, hpdiff⟩
                omega
              obtain ⟨hnf, hnc⟩ := nbrs_complete g color
                (fun q w => findConnectedAux g color fuel q w) fuel
                (fun q w => auxPost_holds g color fuel q w)
                (fun q w hw => (ih q w hw).1)
                (fun q w hw => (ih q w hw).2)
                (g.getNeighbors p.1 p.2) (insert p v) hcard1
              have hmono : insert p v ⊆
                  (findConnectedNbrs (fun q w => findConnectedAux g color fuel q w)
                    (g.getNeighbors p.1 p.2) (insert p v)).2 :=
                nbrsPost_mono (nbrsPost_of_auxPost _
                  (fun q w => auxPost_holds g color fuel q w) _ _)
              refine ⟨fun _ => hmono (Finset.mem_insert_self p v), ?_⟩
              intro x hx hxv y hstep
              by_cases hxp : x = p
              · subst hxp
                exact hnf y hstep.1 hstep.2
              · have hxv1 : x ∉ insert p v := by
                  simp only [Finset.mem_insert]
                  tauto
                exact hnc x hx hxv1 y hstep
            · simp only [findConnectedAux, if_neg hv, hb, if_neg hc]
              refine ⟨?_, fun x hx hxv _ _ => absurd hx hxv⟩
              rintro ⟨b, hb2, hcol⟩
              rw [hb] at hb2
              cases hb2
              exact absurd hcol hc

theorem findConnectedBubbles_empty_case (g : BubbleGrid) (row col : ℤ)
    (color : String)
    (h : g.getBubble row col = none ∨
      ∃ b, g.getBubble row col = some b ∧ b.color ≠ color) :
    g.findConnectedBubbles row col color = [] := by
  unfold BubbleGrid.findConnectedBubbles
  rcases h with h | ⟨b, hb, hcol⟩
  · simp only [findConnectedAux, Finset.not_mem_empty, if_false]
    rw [h]
  · simp only [findConnectedAux, Finset.not_mem_empty, if_false]
    rw [hb]
    simp [hcol]

theorem findConnectedBubbles_component (g : BubbleGrid) (row col : ℤ)
    (color : String) (b : Bubble) (hb : g.getBubble row col = some b)
    (hcol : b.color = color) :
    ((g.findConnectedBubbles row col color).map Prod.fst).Nodup ∧
    (∀ p : Cell,
      p ∈ (g.findConnectedBubbles row col color).map Prod.fst ↔
        connReach g color (row, col) p) ∧
    (∀ e ∈ g.findConnectedBubbles row col color,
      g.getBubble e.1.1 e.1.2 = some e.2 ∧ e.2.color = color) := by
  have hpost := auxPost_holds g color (g.rows.toNat * g.cols.toNat + 1) (row, col) ∅
  obtain ⟨ha, hnd, _, hmatch, hreach, _⟩ := hpost
  have hcard : ((validCells g) \ ∅).card < g.rows.toNat * g.cols.toNat + 1 := by
    rw [Finset.sdiff_empty, validCells_card]
    omega
  obtain ⟨hfirst, hclosed⟩ :=
    aux_complete g color (g.rows.toNat * g.cols.toNat + 1) (row, col) ∅ hcard
  refine ⟨hnd, ?_, hmatch⟩
  intro p
  constructor
  · intro hp
    obtain ⟨e, he, rfl⟩ := List.mem_map.1 hp
    exact hreach e he
  · intro hr
    have hmem2 : p ∈ (findConnectedAux g color
        (g.rows.toNat * g.cols.toNat + 1) (row, col) ∅).2 := by
      induction hr with
      | refl => exact hfirst ⟨b, hb, hcol⟩
      | tail _ hstep ih =>
          exact hclosed _ ih (Finset.not_mem_empty _) _ hstep
    have := (ha p).1 hmem2
    simpa using this

/-- C1: `findConnectedBubbles` returns `[]` when the origin cell is unoccupied
or its occupant's color differs from the queried color; otherwise it returns
exactly the maximal same-color connected component reachable from the origin
through the hex neighbor relation, origin included, each cell exactly once; in
particular it returns exactly the one cell on a single isolated same-color
cell, and exactly 3 cells on a 3-cycle of mutually adjacent same-color cells. -/
theorem c1_findConnectedBubbles_correct :
    (∀ (g : BubbleGrid) (row col : ℤ) (color : String),
      (g.getBubble row col = none ∨
        ∃ b, g.getBubble row col = some b ∧ b.color ≠ color) →
      g.findConnectedBubbles row col color = []) ∧
    (∀ (g : BubbleGrid) (row col : ℤ) (color : String) (b : Bubble),
      g.getBubble row col = some b → b.color = color →
      ((g.findConnectedBubbles row col color).map Prod.fst).Nodup ∧
      ∀ p : Cell,
        p ∈ (g.findConnectedBubbles row col color).map Prod.fst ↔
          connReach g color (row, col) p) ∧
    gSingle.findConnectedBubbles 1 1 "red" = [((1, 1), redB)] ∧
    ((0, 1) ∈ gCycle.getNeighbors 0 0 ∧ (1, 0) ∈ gCycle.getNeighbors 0 0 ∧
      (1, 0) ∈ gCycle.getNeighbors 0 1) ∧
    (gCycle.findConnectedBubbles 0 0 "red").map Prod.fst =
      [(0, 0), (0, 1), (1, 0)] := by
  refine ⟨findConnectedBubbles_empty_case, ?_, by decide, by decide, by decide⟩
  intro g row col color b hb hcol
  obtain ⟨h1, h2, _⟩ := findConnectedBubbles_component g row col color b hb hcol
  exact ⟨h1, h2⟩

/-- Witness for C1 at a concrete grid: the 3-cycle grid's origin is a red
bubble and membership of `(1,0)` in the flood-fill result coincides with
reachability. -/
theorem c1_witness :
    gCycle.getBubble 0 0 = some redB ∧ redB.color = "red" ∧
    ((1, 0) ∈ (gCycle.findConnectedBubbles 0 0 "red").map Prod.fst ↔
      connReach gCycle "red" (0, 0) (1, 0)) :=
  ⟨by decide, rfl,
    (c1_findConnectedBubbles_correct.2.1 gCycle 0 0 "red" redB (by decide) rfl).2
      (1, 0)⟩

/-! ## C9: neighbor lists -/

theorem jsRound_intCast (n : ℤ) : jsRound ((n : ℚ)) = n := by
  unfold jsRound
  rw [Int.floor_eq_iff]
  constructor <;> norm_num

/-- C9: `getNeighbors` returns only in-bounds coordinates, without duplicates,
at most 6 of them; the offset set is selected by the parity of the row, and the
even-row and odd-row diagonal offsets are mirror images in the column delta. -/
theorem c9_getNeighbors_correct :
    (∀ (g : BubbleGrid) (row col : ℤ),
      (∀ p ∈ g.getNeighbors row col, g.isValidPosition p.1 p.2 = true) ∧
      (g.getNeighbors row col).Nodup ∧
      (g.getNeighbors row col).length ≤ 6) ∧
    (∀ g : BubbleGrid, ∀ row col : ℤ, row.tmod 2 = 0 →
      g.getNeighbors row col =
        (evenOffsets.map (fun d => (row + d.1, col + d.2))).filter
          (fun p => g.isValidPosition p.1 p.2)) ∧
    (∀ g : BubbleGrid, ∀ row col : ℤ, row.tmod 2 ≠ 0 →
      g.getNeighbors row col =
        (oddOffsets.map (fun d => (row + d.1, col + d.2))).filter
          (fun p => g.isValidPosition p.1 p.2)) ∧
    (∀ d ∈ evenOffsets, d.1 ≠ 0 → (d.1, -d.2) ∈ oddOffsets) ∧
    (∀ d ∈ oddOffsets, d.1 ≠ 0 → (d.1, -d.2) ∈ evenOffsets) := by
  refine ⟨?_, ?_, ?_, by decide, by decide⟩
  · intro g row col
    have hinj : Function.Injective (fun d : Cell => (row + d.1, col + d.2)) := by
      intro a b h
      simp only [Prod.mk.injEq] at h
      exact Prod.ext (by omega) (by omega)
    have hnodup : (if row.tmod 2 = 0 then evenOffsets else oddOffsets).Nodup := by
      by_cases h : row.tmod 2 = 0 <;> simp [h, evenOffsets, oddOffsets]
    have hlen : (if row.tmod 2 = 0 then evenOffsets else oddOffsets).length = 6 := by
      by_cases h : row.tmod 2 = 0 <;> simp [h, evenOffsets, oddOffsets]
    refine ⟨?_, ?_, ?_⟩
    · intro p hp
      unfold BubbleGrid.getNeighbors at hp
      exact (List.mem_filter.1 hp).2
    · unfold BubbleGrid.getNeighbors
      exact ((hnodup.map hinj)).filter _
    · unfold BubbleGrid.getNeighbors
      calc (((if row.tmod 2 = 0 then evenOffsets else oddOffsets).map
              (fun d => (row + d.1, col + d.2))).filter
                (fun p => g.isValidPosition p.1 p.2)).length
          ≤ ((if row.tmod 2 = 0 then evenOffsets else oddOffsets).map
              (fun d => (row + d.1, col + d.2))).length :=
            List.length_filter_le _ _
        _ = 6 := by rw [List.length_map, hlen]
  · intro g row col h
    unfold BubbleGrid.getNeighbors
    rw [if_pos h]
  · intro g row col h
    unfold BubbleGrid.getNeighbors
    rw [if_neg h]

/-- Witness for C9: a concrete neighbor of `(0,0)` in a 10×16 grid is in
bounds. -/
theorem c9_witness :
    (0, 1) ∈ (mkBubbleGrid 10 16 2).getNeighbors 0 0 ∧
    (mkBubbleGrid 10 16 2).isValidPosition 0 1 = true :=
  ⟨by decide,
   (c9_getNeighbors_correct.1 (mkBubbleGrid 10 16 2) 0 0).1 (0, 1) (by decide)⟩

/-! ## C3: pixel round trip -/

/-- C3: on every in-bounds cell of a grid with nonzero hex offsets (as built by
the constructor), `getGridPosition` applied to the pixel center produced by
`getPosition` recovers exactly the cell, including the odd-row stagger. -/
theorem c3_getGridPosition_getPosition (g : BubbleGrid) (row col : ℤ)
    (hX : g.hexOffsetX ≠ 0) (hY : g.hexOffsetY ≠ 0)
    (_hr0 : 0 ≤ row) (_hrR : row < g.rows) (_hc0 : 0 ≤ col)
    (_hcC : col < g.cols) :
    g.getGridPosition (g.getPosition row col).1 (g.getPosition row col).2 =
      (row, col) := by
  unfold BubbleGrid.getGridPosition BubbleGrid.getPosition
  dsimp only
  rw [show g.startY + (row : ℚ) * g.hexOffsetY - g.startY =
        (row : ℚ) * g.hexOffsetY from by ring]
  rw [mul_div_cancel_right₀ ((row : ℚ)) hY, jsRound_intCast]
  rw [show g.startX + (col : ℚ) * g.hexOffsetX +
        ((row.tmod 2 : ℤ) : ℚ) * g.bubbleRadius - g.startX -
        ((row.tmod 2 : ℤ) : ℚ) * g.bubbleRadius =
        (col : ℚ) * g.hexOffsetX from by ring]
  rw [mul_div_cancel_right₀ ((col : ℚ)) hX, jsRound_intCast]

/-- Witness for C3 on the constructor's 10×16 grid at the odd-row cell
`(1, 2)`. -/
theorem c3_witness :
    (mkBubbleGrid 10 16 2).hexOffsetX ≠ 0 ∧ (mkBubbleGrid 10 16 2).hexOffsetY ≠ 0 ∧
    (mkBubbleGrid 10 16 2).getGridPosition
      ((mkBubbleGrid 10 16 2).getPosition 1 2).1
      ((mkBubbleGrid 10 16 2).getPosition 1 2).2 = (1, 2) :=
  ⟨by norm_num [mkBubbleGrid], by norm_num [mkBubbleGrid],
   c3_getGridPosition_getPosition (mkBubbleGrid 10 16 2) 1 2
     (by norm_num [mkBubbleGrid]) (by norm_num [mkBubbleGrid])
     (by norm_num) (by norm_num [mkBubbleGrid]) (by norm_num)
     (by norm_num [mkBubbleGrid])⟩

/-! ## C4: clamped aim cone -/

/-- C4: whatever the target (below, above, sideways) and whatever the previous
state of the shooter, `aim` leaves the angle inside the fixed upward cone
`[-0.8π, -0.2π]` (for the actual positive `Math.PI`), so it never points
horizontal-or-below; as the bound holds for every prior state, it holds after
every sequence of `aim` calls. -/
theorem c4_aim_clamped (ops : MathOps) (s : Shooter) (targetX targetY : ℚ)
    (hpi : 0 ≤ ops.pi) :
    -ops.pi * (8/10) ≤ (Shooter.aim ops s targetX targetY).angle ∧
    (Shooter.aim ops s targetX targetY).angle ≤ -ops.pi * (2/10) := by
  unfold Shooter.aim Shooter.calculateTrajectory
  dsimp only
  constructor
  · exact le_max_left _ _
  · apply max_le
    · linarith
    · exact min_le_left _ _

/-- Witness for C4: with `pi = 3` and a target due right of the pivot the
resulting angle obeys the cone bounds. -/
theorem c4_witness :
    (0 : ℚ) ≤ opsEx.pi ∧
    (-opsEx.pi * (8/10) ≤ (Shooter.aim opsEx shooterEx 700 550).angle ∧
     (Shooter.aim opsEx shooterEx 700 550).angle ≤ -opsEx.pi * (2/10)) :=
  ⟨by norm_num [opsEx], c4_aim_clamped opsEx shooterEx 700 550 (by norm_num [opsEx])⟩

/-! ## C6: wall reflection -/

/-- C6: one `bounceOffWalls` step inverts and clamps horizontally exactly when
the bubble touches a side wall, inverts and clamps vertically exactly when it
touches the top wall, and in particular never changes the vertical velocity at
the bottom edge (no floor bounce). -/
theorem c6_bounceOffWalls_correct (b : Bubble) (W H : ℚ) :
    ((b.x ≤ b.radius ∨ b.x ≥ W - b.radius) →
      (b.bounceOffWalls W H).vx = -b.vx ∧
      (b.bounceOffWalls W H).x = max b.radius (min (W - b.radius) b.x)) ∧
    (¬(b.x ≤ b.radius ∨ b.x ≥ W - b.radius) →
      (b.bounceOffWalls W H).vx = b.vx ∧ (b.bounceOffWalls W H).x = b.x) ∧
    (b.y ≤ b.radius →
      (b.bounceOffWalls W H).vy = -b.vy ∧ (b.bounceOffWalls W H).y = b.radius) ∧
    (¬(b.y ≤ b.radius) →
      (b.bounceOffWalls W H).vy = b.vy ∧ (b.bounceOffWalls W H).y = b.y) := by
  by_cases hx : b.x ≤ b.radius ∨ b.x ≥ W - b.radius <;>
    by_cases hy : b.y ≤ b.radius
  · have hres : b.bounceOffWalls W H =
        { b with vx := -b.vx, x := max b.radius (min (W - b.radius) b.x),
                 vy := -b.vy, y := b.radius } := by
      unfold Bubble.bounceOffWalls
      dsimp only
      rw [if_pos hx]
      dsimp only
      rw [if_pos hy]
    exact ⟨fun _ => ⟨by rw [hres], by rw [hres]⟩, fun h => absurd hx h,
           fun _ => ⟨by rw [hres], by rw [hres]⟩, fun h => absurd hy h⟩
  · have hres : b.bounceOffWalls W H =
        { b with vx := -b.vx, x := max b.radius (min (W - b.radius) b.x) } := by
      unfold Bubble.bounceOffWalls
      dsimp only
      rw [if_pos hx]
      dsimp only
      rw [if_neg hy]
    exact ⟨fun _ => ⟨by rw [hres], by rw [hres]⟩, fun h => absurd hx h,
           fun h => absurd h hy,
           fun _ => ⟨by rw [hres], by rw [hres]⟩⟩
  · have hres : b.bounceOffWalls W H =
        { b with vy := -b.vy, y := b.radius } := by
      unfold Bubble.bounceOffWalls
      dsimp only
      rw [if_neg hx]
      rw [if_pos hy]
    exact ⟨fun h => absurd h hx, fun _ => ⟨by rw [hres], by rw [hres]⟩,
           fun _ => ⟨by rw [hres], by rw [hres]⟩, fun h => absurd hy h⟩
  · have hres : b.bounceOffWalls W H = b := by
      unfold Bubble.bounceOffWalls
      dsimp only
      rw [if_neg hx]
      rw [if_neg hy]
    exact ⟨fun h => absurd h hx, fun _ => ⟨by rw [hres], by rw [hres]⟩,
           fun h => absurd h hy,
           fun _ => ⟨by rw [hres], by rw [hres]⟩⟩

/-- Witness for C6: the spec's scenario — a projectile at `x = -2` with
`vx = -3` (radius 20, canvas 800×600, `y` away from the top) comes out of one
reflection step with `vx = 3`, `x` clamped to the minimum valid `x = 20`, and
vertical velocity untouched. -/
theorem c6_witness :
    (bLeftWall.bounceOffWalls 800 600).vx = -bLeftWall.vx ∧
    (bLeftWall.bounceOffWalls 800 600).vx = 3 ∧
    (bLeftWall.bounceOffWalls 800 600).x = 20 ∧
    (bLeftWall.bounceOffWalls 800 600).vy = bLeftWall.vy := by
  obtain ⟨h1, -, -, h4⟩ := c6_bounceOffWalls_correct bLeftWall 800 600
  obtain ⟨hvx, hx⟩ := h1 (by norm_num [bLeftWall, mkBubble])
  refine ⟨hvx, ?_, ?_, (h4 (by norm_num [bLeftWall, mkBubble])).1⟩
  · rw [hvx]; norm_num [bLeftWall, mkBubble]
  · rw [hx]; norm_num [bLeftWall, mkBubble]

/-! ## C7: firing -/

/-- C7: with no loaded bubble, `shoot` returns `null` and the shooter state is
exactly unchanged; with a loaded bubble it returns that bubble set moving with
velocity `power · (cos angle, sin angle)` from the muzzle, promotes the queued
bubble and generates a fresh queued bubble. -/
theorem c7_shoot_correct (ops : MathOps) (rand : ℚ) (s : Shooter) :
    (s.currentBubble = none → Shooter.shoot ops rand s = (none, s)) ∧
    (∀ b, s.currentBubble = some b →
      Shooter.shoot ops rand s =
        (some { b with
            x := s.x
            y := s.y - 30
            vx := ops.cos s.angle * s.power
            vy := ops.sin s.angle * s.power
            state := BubbleState.moving },
         { s with currentBubble := s.nextBubble,
                  nextBubble := some (s.generateRandomBubble rand) })) := by
  constructor
  · intro h
    unfold Shooter.shoot
    rw [h]
  · intro b h
    unfold Shooter.shoot
    rw [h]

/-- Witness for C7: the empty shooter fires nothing and is unchanged; the
loaded shooter fires its loaded bubble. -/
theorem c7_witness :
    Shooter.shoot opsEx 0 shooterEmpty = (none, shooterEmpty) ∧
    Shooter.shoot opsEx 0 shooterEx =
      (some { mkBubble 400 520 "red" 15 with
          x := shooterEx.x
          y := shooterEx.y - 30
          vx := opsEx.cos shooterEx.angle * shooterEx.power
          vy := opsEx.sin shooterEx.angle * shooterEx.power
          state := BubbleState.moving },
       { shooterEx with currentBubble := shooterEx.nextBubble,
                        nextBubble := some (shooterEx.generateRandomBubble 0) }) :=
  ⟨(c7_shoot_correct opsEx 0 shooterEmpty).1 rfl,
   (c7_shoot_correct opsEx 0 shooterEx).2 (mkBubble 400 520 "red" 15) rfl⟩

/-! ## C8: dissolve animation budget -/

/-- C8: starting from `explode()` (which resets the frame counter to 0), each
`update()` increments the counter while the bubble stays `exploding` for the
full 20-frame budget, and from the 21st update on the bubble is `destroyed`. -/
theorem update_exploding_le (sinF : ℚ → ℚ) (now : ℚ) (b : Bubble)
    (hs : b.state = BubbleState.exploding) (hle : b.animationFrame + 1 ≤ 20) :
    (Bubble.update sinF now b).state = BubbleState.exploding ∧
    (Bubble.update sinF now b).animationFrame = b.animationFrame + 1 := by
  unfold Bubble.update
  rw [hs]
  dsimp only
  rw [if_neg (by omega)]
  exact ⟨rfl, rfl⟩

theorem update_exploding_gt (sinF : ℚ → ℚ) (now : ℚ) (b : Bubble)
    (hs : b.state = BubbleState.exploding) (hgt : 20 < b.animationFrame + 1) :
    (Bubble.update sinF now b).state = BubbleState.destroyed := by
  unfold Bubble.update
  rw [hs]
  dsimp only
  rw [if_pos (by omega)]

theorem update_destroyed (sinF : ℚ → ℚ) (now : ℚ) (b : Bubble)
    (hs : b.state = BubbleState.destroyed) :
    Bubble.update sinF now b = b := by
  unfold Bubble.update
  rw [hs]

theorem c8_explode_budget (sinF : ℚ → ℚ) (now : ℚ) (b : Bubble) (n : ℕ) :
    (n ≤ 20 →
      ((Bubble.update sinF now)^[n] b.explode).state = BubbleState.exploding ∧
      ((Bubble.update sinF now)^[n] b.explode).animationFrame = n) ∧
    (21 ≤ n →
      ((Bubble.update sinF now)^[n] b.explode).state = BubbleState.destroyed) := by
  induction n with
  | zero =>
      refine ⟨fun _ => ⟨rfl, rfl⟩, fun h => absurd h (by omega)⟩
  | succ n ih =>
      constructor
      · intro h
        obtain ⟨hs, ha⟩ := ih.1 (by omega)
        rw [Function.iterate_succ_apply']
        obtain ⟨h1, h2⟩ := update_exploding_le sinF now _ hs (by omega)
        exact ⟨h1, by rw [h2, ha]⟩
      · intro h
        rw [Function.iterate_succ_apply']
        by_cases h20 : n = 20
        · subst h20
          obtain ⟨hs, ha⟩ := ih.1 (le_refl 20)
          exact update_exploding_gt sinF now _ hs (by omega)
        · have hd := ih.2 (by omega)
          rw [update_destroyed sinF now _ hd]
          exact hd

/-- Witness for C8: after exactly 20 updates a freshly exploded bubble is still
dissolving on frame 20, and after 21 it is destroyed. -/
theorem c8_witness :
    (((Bubble.update opsEx.sin 0)^[20] redB.explode).state =
        BubbleState.exploding ∧
     ((Bubble.update opsEx.sin 0)^[20] redB.explode).animationFrame = 20) ∧
    ((Bubble.update opsEx.sin 0)^[21] redB.explode).state =
      BubbleState.destroyed :=
  ⟨(c8_explode_budget opsEx.sin 0 redB 20).1 (by omega),
   (c8_explode_budget opsEx.sin 0 redB 21).2 (by omega)⟩

/-! ## C5 and C10: landing-cell search and overwriting placement -/

theorem scanUp_some_spec (g : BubbleGrid) (col : ℤ) :
    ∀ (r : ℕ) (m : ℤ), scanUp g col r = some m →
      0 ≤ m ∧ m ≤ (r : ℤ) ∧ (g.getBubble m col).isNone = true ∧
      ∀ k : ℤ, m < k → k ≤ (r : ℤ) → (g.getBubble k col).isNone = false := by
  intro r
  induction r with
  | zero =>
      intro m h
      unfold scanUp at h
      cases hfree : (g.getBubble 0 col).isNone with
      | true =>
          rw [hfree] at h
          simp only [if_true] at h
          cases h
          exact ⟨le_refl 0, by norm_num, hfree, fun k hk1 hk2 => by omega⟩
      | false =>
          rw [hfree] at h
          simp at h
  | succ r ih =>
      intro m h
      unfold scanUp at h
      cases hfree : (g.getBubble ((r : ℤ) + 1) col).isNone with
      | true =>
          rw [hfree] at h
          simp only [if_true] at h
          cases h
          refine ⟨by omega, by push_cast; omega, hfree, ?_⟩
          intro k hk1 hk2
          push_cast at hk2
          omega
      | false =>
          rw [hfree] at h
          simp only [Bool.false_eq_true, if_false] at h
          obtain ⟨hm0, hmr, hfree2, hocc⟩ := ih m h
          refine ⟨hm0, by push_cast; omega, hfree2, ?_⟩
          intro k hk1 hk2
          by_cases hkr : k ≤ (r : ℤ)
          · exact hocc k hk1 hkr
          · have : k = (r : ℤ) + 1 := by push_cast at hk2; omega
            rw [this]
            exact hfree

theorem scanUp_none_spec (g : BubbleGrid) (col : ℤ) :
    ∀ r : ℕ, scanUp g col r = none →
      ∀ k : ℤ, 0 ≤ k → k ≤ (r : ℤ) → (g.getBubble k col).isNone = false := by
  intro r
  induction r with
  | zero =>
      intro h k hk1 hk2
      unfold scanUp at h
      cases hfree : (g.getBubble 0 col).isNone with
      | true => rw [hfree] at h; simp at h
      | false =>
          have : k = 0 := by omega
          rw [this]
          exact hfree
  | succ r ih =>
      intro h k hk1 hk2
      unfold scanUp at h
      cases hfree : (g.getBubble ((r : ℤ) + 1) col).isNone with
      | true => rw [hfree] at h; simp at h
      | false =>
          rw [hfree] at h
          simp only [Bool.false_eq_true, if_false] at h
          by_cases hkr : k ≤ (r : ℤ)
          · exact ih h k hk1 hkr
          · have : k = (r : ℤ) + 1 := by push_cast at hk2; omega
            rw [this]
            exact hfree

theorem findNearestEmpty_eq (g : BubbleGrid) (x y : ℚ) :
    g.findNearestEmptyPosition x y =
      (if (g.getBubble (max 0 (min (g.rows - 1) (g.getGridPosition x y).1))
            (max 0 (min (g.cols - 1) (g.getGridPosition x y).2))).isNone then
        (max 0 (min (g.rows - 1) (g.getGridPosition x y).1),
         max 0 (min (g.cols - 1) (g.getGridPosition x y).2))
      else
        match scanUp g (max 0 (min (g.cols - 1) (g.getGridPosition x y).2))
            (max 0 (min (g.rows - 1) (g.getGridPosition x y).1)).toNat with
        | some r => (r, max 0 (min (g.cols - 1) (g.getGridPosition x y).2))
        | none => (0, max 0 (min (g.cols - 1) (g.getGridPosition x y).2))) := rfl

theorem findNearestEmpty_full_column (g : BubbleGrid) (x y : ℚ)
    (hr : 0 < g.rows)
    (hfull : ∀ k : ℤ, 0 ≤ k → k < g.rows →
      (g.getBubble k (max 0 (min (g.cols - 1) (g.getGridPosition x y).2))).isNone
        = false) :
    g.findNearestEmptyPosition x y =
      (0, max 0 (min (g.cols - 1) (g.getGridPosition x y).2)) := by
  set c0 := max 0 (min (g.cols - 1) (g.getGridPosition x y).2) with hc0
  set r0 := max 0 (min (g.rows - 1) (g.getGridPosition x y).1) with hr0
  have hb1 : 0 ≤ r0 := by omega
  have hb2 : r0 < g.rows := by omega
  have hocc : (g.getBubble r0 c0).isNone = false := hfull r0 hb1 hb2
  rw [findNearestEmpty_eq, hocc]
  simp only [Bool.false_eq_true, if_false]
  cases hscan : scanUp g c0 r0.toNat with
  | some m =>
      obtain ⟨hm0, hmr, hfree, _⟩ := scanUp_some_spec g c0 r0.toNat m hscan
      rw [Int.toNat_of_nonneg hb1] at hmr
      have := hfull m hm0 (by omega)
      rw [hfree] at this
      cases this
  | none => rfl

/-- C5: `findNearestEmptyPosition` clamps the `getGridPosition` cell into the
grid, returns it when free, otherwise scans strictly upward in the same column
for the first free cell, falls back to `(0, col)` when the whole scanned column
is occupied, and (on a nonempty grid) always returns in-bounds coordinates. -/
theorem c5_findNearestEmptyPosition_correct (g : BubbleGrid) (x y : ℚ)
    (hr : 0 < g.rows) (hc : 0 < g.cols) :
    (g.findNearestEmptyPosition x y).2 =
      max 0 (min (g.cols - 1) (g.getGridPosition x y).2) ∧
    (0 ≤ (g.findNearestEmptyPosition x y).1 ∧
     (g.findNearestEmptyPosition x y).1 < g.rows ∧
     0 ≤ (g.findNearestEmptyPosition x y).2 ∧
     (g.findNearestEmptyPosition x y).2 < g.cols) ∧
    ((g.getBubble (max 0 (min (g.rows - 1) (g.getGridPosition x y).1))
        (max 0 (min (g.cols - 1) (g.getGridPosition x y).2))).isNone = true →
      g.findNearestEmptyPosition x y =
        (max 0 (min (g.rows - 1) (g.getGridPosition x y).1),
         max 0 (min (g.cols - 1) (g.getGridPosition x y).2))) ∧
    ((g.getBubble (max 0 (min (g.rows - 1) (g.getGridPosition x y).1))
        (max 0 (min (g.cols - 1) (g.getGridPosition x y).2))).isNone = false →
      ((g.findNearestEmptyPosition x y).1 ≤
          max 0 (min (g.rows - 1) (g.getGridPosition x y).1) ∧
        (g.getBubble (g.findNearestEmptyPosition x y).1
          (g.findNearestEmptyPosition x y).2).isNone = true ∧
        ∀ k : ℤ, (g.findNearestEmptyPosition x y).1 < k →
          k ≤ max 0 (min (g.rows - 1) (g.getGridPosition x y).1) →
          (g.getBubble k (g.findNearestEmptyPosition x y).2).isNone = false) ∨
      (g.findNearestEmptyPosition x y =
          (0, max 0 (min (g.cols - 1) (g.getGridPosition x y).2)) ∧
        ∀ k : ℤ, 0 ≤ k → k ≤ max 0 (min (g.rows - 1) (g.getGridPosition x y).1) →
          (g.getBubble k (max 0 (min (g.cols - 1) (g.getGridPosition x y).2))).isNone
            = false)) := by
  rw [findNearestEmpty_eq]
  set c0 := max 0 (min (g.cols - 1) (g.getGridPosition x y).2) with hc0
  set r0 := max 0 (min (g.rows - 1) (g.getGridPosition x y).1) with hr0
  have hb1 : 0 ≤ r0 := by omega
  have hb2 : r0 < g.rows := by omega
  have hb3 : 0 ≤ c0 := by omega
  have hb4 : c0 < g.cols := by omega
  cases hocc : (g.getBubble r0 c0).isNone with
  | true =>
      rw [if_pos rfl]
      exact ⟨rfl, ⟨hb1, hb2, hb3, hb4⟩, fun _ => rfl,
        fun hfalse => Bool.noConfusion hfalse⟩
  | false =>
      rw [if_neg Bool.false_ne_true]
      cases hscan : scanUp g c0 r0.toNat with
      | some m =>
          dsimp only
          obtain ⟨hm0, hmr, hfree, hoccs⟩ := scanUp_some_spec g c0 r0.toNat m hscan
          rw [Int.toNat_of_nonneg hb1] at hmr hoccs
          refine ⟨rfl, ⟨hm0, by omega, hb3, hb4⟩,
            fun htrue => Bool.noConfusion htrue,
            fun _ => Or.inl ⟨hmr, hfree, hoccs⟩⟩
      | none =>
          dsimp only
          have hoccs := scanUp_none_spec g c0 r0.toNat hscan
          rw [Int.toNat_of_nonneg hb1] at hoccs
          refine ⟨rfl, ⟨le_refl 0, hr, hb3, hb4⟩,
            fun htrue => Bool.noConfusion htrue,
            fun _ => Or.inr ⟨rfl, hoccs⟩⟩

/-- Witness for C5: on the 2×1 grid with a fully occupied column, the search
returns the top cell `(0, 0)`, which is in bounds. -/
theorem c5_witness :
    (0 : ℤ) < gFullCol.rows ∧ (0 : ℤ) < gFullCol.cols ∧
    (0 ≤ (gFullCol.findNearestEmptyPosition 0 0).1 ∧
     (gFullCol.findNearestEmptyPosition 0 0).1 < gFullCol.rows ∧
     0 ≤ (gFullCol.findNearestEmptyPosition 0 0).2 ∧
     (gFullCol.findNearestEmptyPosition 0 0).2 < gFullCol.cols) :=
  ⟨by decide, by decide,
   (c5_findNearestEmptyPosition_correct gFullCol 0 0 (by decide) (by decide)).2.1⟩

theorem getBubble_update (g : BubbleGrid) (f : ℤ → ℤ → Option Bubble)
    (r c : ℤ) :
    ({ g with cells := f } : BubbleGrid).getBubble r c =
      if g.isValidPosition r c then f r c else none := rfl

/-- C10: `addBubble` on a valid but already occupied cell still returns `true`
and silently overwrites: the new occupant is the snapped incoming bubble, every
other cell is untouched, and the previous occupant is gone without being
returned (only a boolean comes back); moreover `findNearestEmptyPosition`
returns `(0, col)` even when the whole column (hence the cell `(0, col)`) is
occupied, so the attach path can feed such an overwrite. -/
theorem c10_addBubble_overwrite :
    (∀ (g : BubbleGrid) (row col : ℤ) (p q : Bubble),
      g.getBubble row col = some q →
      (g.addBubble row col p).1 = true ∧
      ((g.addBubble row col p).2).getBubble row col =
        some ((({ p with x := (g.getPosition row col).1, y := (g.getPosition row col).2 }).setGridPosition row col).stop) ∧
      ((g.addBubble row col p).2).rows = g.rows ∧
      ((g.addBubble row col p).2).cols = g.cols ∧
      (∀ r c : ℤ, ¬(r = row ∧ c = col) →
        ((g.addBubble row col p).2).getBubble r c = g.getBubble r c)) ∧
    (∀ (g : BubbleGrid) (x y : ℚ), 0 < g.rows →
      (∀ k : ℤ, 0 ≤ k → k < g.rows →
        (g.getBubble k
          (max 0 (min (g.cols - 1) (g.getGridPosition x y).2))).isNone = false) →
      g.findNearestEmptyPosition x y =
        (0, max 0 (min (g.cols - 1) (g.getGridPosition x y).2))) := by
  constructor
  · intro g row col p q hq
    have hv := getBubble_isValid hq
    have haddeq : g.addBubble row col p =
        (true, { g with cells := fun r c =>
          (if r = row ∧ c = col then
            some ((({ p with x := (g.getPosition row col).1, y := (g.getPosition row col).2 }).setGridPosition row col).stop)
          else g.cells r c) }) := by
      unfold BubbleGrid.addBubble
      rw [if_pos hv]
    rw [haddeq]
    refine ⟨rfl, ?_, rfl, rfl, ?_⟩
    · rw [getBubble_update, if_pos hv]
      rw [if_pos ⟨rfl, rfl⟩]
    · intro r c hne
      rw [getBubble_update]
      unfold BubbleGrid.getBubble
      by_cases hv2 : g.isValidPosition r c = true
      · rw [if_pos hv2, if_pos hv2]
        rw [if_neg hne]
      · rw [if_neg hv2, if_neg hv2]
  · exact findNearestEmpty_full_column

/-- Witness for C10: overwriting the occupied cell `(0,0)` of the 3-cycle grid
still reports success, and on the full-column grid the search lands on the
occupied top cell. -/
theorem c10_witness :
    (gCycle.addBubble 0 0 (mkBubble 1 2 "blue")).1 = true ∧
    gFullCol.findNearestEmptyPosition 0 0 = (0, 0) := by
  have hX : (gFullCol.getGridPosition 0 0).2 = -1 := by
    norm_num [gFullCol, mkBubbleGrid, BubbleGrid.getGridPosition, jsRound,
      show ((-1:ℤ).tmod 2) = -1 from by decide]
  have hcols : gFullCol.cols = 1 := rfl
  have hrows : gFullCol.rows = 2 := rfl
  have hc : max 0 (min (gFullCol.cols - 1) (gFullCol.getGridPosition 0 0).2)
      = 0 := by
    rw [hX, hcols]
    omega
  refine ⟨(c10_addBubble_overwrite.1 gCycle 0 0 (mkBubble 1 2 "blue") redB
    (by decide)).1, ?_⟩
  have h := c10_addBubble_overwrite.2 gFullCol 0 0 (by decide) ?_
  · rw [h, hc]
  · intro k h1 h2
    rw [hc]
    rw [hrows] at h2
    interval_cases k <;> decide

/-! ## C2: elimination step -/

theorem removeBubble_of_occupied {g : BubbleGrid} {r c : ℤ} {q : Bubble}
    (h : g.getBubble r c = some q) :
    g.removeBubble r c =
      (some q,
       { g with cells := fun a b => if a = r ∧ b = c then none else g.cells a b }) := by
  have hv := getBubble_isValid h
  unfold BubbleGrid.removeBubble
  rw [if_pos hv]
  unfold BubbleGrid.getBubble at h
  rw [if_pos hv] at h
  rw [h]

theorem eliminate_fold (L : List Entry) :
    ∀ (g : BubbleGrid) (cnt : ℕ) (ex : List Bubble),
      (L.map Prod.fst).Nodup →
      (∀ e ∈ L, g.getBubble e.1.1 e.1.2 = some e.2) →
      (L.foldl eliminateStep (g, cnt, ex)).1.rows = g.rows ∧
      (L.foldl eliminateStep (g, cnt, ex)).1.cols = g.cols ∧
      (L.foldl eliminateStep (g, cnt, ex)).2.1 = cnt + L.length ∧
      (L.foldl eliminateStep (g, cnt, ex)).2.2 =
        ex ++ L.map (fun e => e.2.explode) ∧
      (∀ e ∈ L, (L.foldl eliminateStep (g, cnt, ex)).1.getBubble e.1.1 e.1.2
        = none) ∧
      (∀ r c : ℤ, (r, c) ∉ L.map Prod.fst →
        (L.foldl eliminateStep (g, cnt, ex)).1.getBubble r c =
          g.getBubble r c) := by
  induction L with
  | nil =>
      intro g cnt ex _ _
      simp
  | cons e L ih =>
      intro g cnt ex hnd hocc
      have he : g.getBubble e.1.1 e.1.2 = some e.2 :=
        hocc e (List.mem_cons_self e L)
      have hstep : eliminateStep (g, cnt, ex) e =
          ({ g with cells := fun a b =>
              if a = e.1.1 ∧ b = e.1.2 then none else g.cells a b },
           cnt + 1, ex ++ [e.2.explode]) := by
        unfold eliminateStep
        rw [removeBubble_of_occupied he]
      rw [List.foldl_cons, hstep]
      have hnd1 : (L.map Prod.fst).Nodup := (List.nodup_cons.1 hnd).2
      have hem : e.1 ∉ L.map Prod.fst := (List.nodup_cons.1 hnd).1
      have hgb1 : ∀ a b : ℤ,
          ({ g with cells := fun a b =>
              if a = e.1.1 ∧ b = e.1.2 then none else g.cells a b }
            : BubbleGrid).getBubble a b =
            if g.isValidPosition a b = true then
              (if a = e.1.1 ∧ b = e.1.2 then none else g.cells a b)
            else none :=
        fun a b => rfl
      have hocc1 : ∀ e2 ∈ L,
          ({ g with cells := fun a b =>
              if a = e.1.1 ∧ b = e.1.2 then none else g.cells a b }
            : BubbleGrid).getBubble e2.1.1 e2.1.2 = some e2.2 := by
        intro e2 he2
        have hg2 := hocc e2 (List.mem_cons_of_mem e he2)
        have hv2 := getBubble_isValid hg2
        have hne : ¬(e2.1.1 = e.1.1 ∧ e2.1.2 = e.1.2) := by
          rintro ⟨h1, h2⟩
          apply hem
          have : e2.1 = e.1 := Prod.ext h1 h2
          rw [← this]
          exact List.mem_map_of_mem Prod.fst he2
        rw [hgb1, if_pos hv2, if_neg hne]
        unfold BubbleGrid.getBubble at hg2
        rw [if_pos hv2] at hg2
        exact hg2
      obtain ⟨ihrows, ihcols, ihcnt, ihex, ihrem, ihun⟩ :=
        ih _ (cnt + 1) (ex ++ [e.2.explode]) hnd1 hocc1
      refine ⟨by rw [ihrows], by rw [ihcols],
        by rw [ihcnt]; simp only [List.length_cons]; omega,
        by rw [ihex]; simp, ?_, ?_⟩
      · intro e2 he2
        rcases List.mem_cons.1 he2 with rfl | he2
        · have hnotin : ((e2.1.1, e2.1.2) : Cell) ∉ L.map Prod.fst := by
            rw [Prod.mk.eta]
            exact hem
          rw [ihun e2.1.1 e2.1.2 hnotin, hgb1]
          by_cases hv2 : g.isValidPosition e2.1.1 e2.1.2 = true
          · rw [if_pos hv2, if_pos ⟨rfl, rfl⟩]
          · rw [if_neg hv2]
        · exact ihrem e2 he2
      · intro r c hrc
        simp only [List.map_cons, List.mem_cons, not_or] at hrc
        obtain ⟨hrc0, hrc1⟩ := hrc
        rw [ihun r c hrc1, hgb1]
        have hne : ¬(r = e.1.1 ∧ c = e.1.2) := by
          rintro ⟨h1, h2⟩
          apply hrc0
          rw [h1, h2, Prod.mk.eta]
        unfold BubbleGrid.getBubble
        by_cases hv2 : g.isValidPosition r c = true
        · rw [if_pos hv2, if_pos hv2, if_neg hne]
        · rw [if_neg hv2, if_neg hv2]

/-- C2: when the landing cell holds a projectile whose same-color connected
set has size `N ≥ 3`, `checkElimination` empties exactly those `N` cells
(leaving every other cell untouched, hence no double removal), starts each
removed bubble dissolving (state `exploding`, frame 0), and adds exactly
`10 · N` to the score; when `N < 3` the game state is unchanged. -/
theorem c2_checkElimination_correct (game : BubbleGame) (row col : ℤ)
    (bubble : Bubble)
    (hb : game.bubbleGrid.getBubble row col = some bubble) :
    (3 ≤ (game.bubbleGrid.findConnectedBubbles row col bubble.color).length →
      (∀ e ∈ game.bubbleGrid.findConnectedBubbles row col bubble.color,
        ((game.checkElimination row col).1).bubbleGrid.getBubble e.1.1 e.1.2
          = none) ∧
      (∀ r c : ℤ,
        ((r, c) : Cell) ∉
          (game.bubbleGrid.findConnectedBubbles row col bubble.color).map
            Prod.fst →
        ((game.checkElimination row col).1).bubbleGrid.getBubble r c =
          game.bubbleGrid.getBubble r c) ∧
      ((game.checkElimination row col).1).score =
        game.score +
          10 * (game.bubbleGrid.findConnectedBubbles row col
            bubble.color).length ∧
      (game.checkElimination row col).2 =
        (game.bubbleGrid.findConnectedBubbles row col bubble.color).map
          (fun e => e.2.explode) ∧
      (∀ b2 ∈ (game.checkElimination row col).2,
        b2.state = BubbleState.exploding ∧ b2.animationFrame = 0)) ∧
    ((game.bubbleGrid.findConnectedBubbles row col bubble.color).length < 3 →
      game.checkElimination row col = (game, [])) := by
  obtain ⟨hnd, hiff, hmatch⟩ :=
    findConnectedBubbles_component game.bubbleGrid row col bubble.color bubble
      hb rfl
  have hocc : ∀ e ∈ game.bubbleGrid.findConnectedBubbles row col bubble.color,
      game.bubbleGrid.getBubble e.1.1 e.1.2 = some e.2 :=
    fun e he => (hmatch e he).1
  unfold BubbleGame.checkElimination
  rw [hb]
  dsimp only
  by_cases h3 :
      3 ≤ (game.bubbleGrid.findConnectedBubbles row col bubble.color).length
  · rw [if_pos h3]
    obtain ⟨hrows, hcols, hcnt, hex, hrem, hun⟩ :=
      eliminate_fold (game.bubbleGrid.findConnectedBubbles row col bubble.color)
        game.bubbleGrid 0 [] hnd hocc
    constructor
    · intro _
      refine ⟨hrem, hun, ?_, ?_, ?_⟩
      · dsimp only
        rw [hcnt]
        push_cast
        ring
      · dsimp only
        rw [hex]
        simp
      · intro b2 hb2
        dsimp only at hb2
        rw [hex] at hb2
        simp only [List.nil_append, List.mem_map] at hb2
        obtain ⟨e, _, rfl⟩ := hb2
        exact ⟨rfl, rfl⟩
    · intro hlt
      exact absurd h3 (by omega)
  · rw [if_neg h3]
    exact ⟨fun hge => absurd hge h3, fun _ => rfl⟩

/-- Witness for C2: on the 3-cycle game the landing cell `(0,0)` is occupied,
its red component has 3 members, and elimination raises the score by 30. -/
theorem c2_witness :
    gameEx.bubbleGrid.getBubble 0 0 = some redB ∧
    3 ≤ (gameEx.bubbleGrid.findConnectedBubbles 0 0 redB.color).length ∧
    (gameEx.checkElimination 0 0).1.score =
      gameEx.score +
        10 * (gameEx.bubbleGrid.findConnectedBubbles 0 0 redB.color).length :=
  ⟨by decide, by decide,
   ((c2_checkElimination_correct gameEx 0 0 redB (by decide)).1
     (by decide)).2.2.1⟩
